import Mathlib

/-!
Shallow embedding of `src/cpp/diffraction/StaticStructureFactor.cc` (the freud
static-structure-factor accumulation engine), together with theorems settling
the specification claims about it.

Modelling conventions:
* Floating-point arithmetic is carried out over `ℚ`; the external `util::sinc`
  function and the constant `freud::constants::TWO_PI` are parameters of each
  definition (the theorems constrain them only where the source relies on their
  contract, e.g. `sinc 0 = 1`).
* The box collaborator's all-pairs periodic distance computation is a parameter
  `dist : α → α → ℚ`; the RDF collaborator's output is a parameter `g : ℕ → ℚ`
  giving g(r) at each RDF bin center.
* `m_min_valid_k` is a `WithTop ℚ` so that its initialisation to
  `std::numeric_limits<float>::infinity()` is `⊤` and `std::min` is `min`.
* The `nextafter(0.5f * min_box_length, 0.0f)` computation is modelled at the
  IEEE-754 binary32 bit-pattern level (see `floatValS` below).
-/

namespace Freud

/-- Modelled from the spec: `util::simpson_integrate` (utils.h, not under
src/). Composite Simpson's rule over `n` sample points `f 0 … f (n-1)` (an odd
count, hence an even interval count) with step size `dx`:
`(dx/3) · Σⱼ (f(2j) + 4·f(2j+1) + f(2j+2))`. -/
def simpson_integrate (f : ℕ → ℚ) (n : ℕ) (dx : ℚ) : ℚ :=
  dx / 3 * (((List.range ((n - 1) / 2)).map
    (fun j => f (2 * j) + 4 * f (2 * j + 1) + f (2 * j + 2))).sum)

/-- Modelled from the spec: `util::RegularAxis` bin centers (Histogram.h, not
under src/) — `bins` equal-width bins over `[lo, hi]`, center `i` at the
midpoint `lo + (hi-lo)/bins · (i + 1/2)`. -/
def binCenter (bins : ℕ) (lo hi : ℚ) (i : ℕ) : ℚ :=
  lo + (hi - lo) / (bins : ℚ) * ((i : ℚ) + 1 / 2)

/-- The list of all `bins` bin centers of a regular axis, in index order. -/
def binCenters (bins : ℕ) (lo hi : ℚ) : List ℚ :=
  (List.range bins).map (binCenter bins lo hi)

/-- State of the `StaticStructureFactor` engine: the constructor arguments
fixing the k-axis and the mode, plus the mutable members `m_frame_counter`,
`m_min_valid_k`, `m_local_histograms`, `m_structure_factor` and `m_reduce`.
The thread-local histogram set is tracked as the per-bin total of all
increments (each bin is written by exactly one worker, so the binwise merge
across workers equals this total). -/
structure StaticStructureFactor where
  bins : ℕ
  k_min : ℚ
  k_max : ℚ
  direct : Bool
  frame_counter : ℕ
  min_valid_k : WithTop ℚ
  local_histograms : List ℚ
  structure_factor : List ℚ
  reduce_flag : Bool
deriving DecidableEq

/-- The constructor `StaticStructureFactor::StaticStructureFactor` (lines
22–39): validates the arguments in source order, then builds the axis, the
empty histograms, `m_min_valid_k = ∞` and `m_frame_counter = 0`. A thrown
`std::invalid_argument` is an `Except.error` carrying the message. -/
def mkStaticStructureFactor (bins : ℕ) (k_max k_min : ℚ) (direct : Bool) :
    Except String StaticStructureFactor :=
  if bins = 0 then
    .error "StaticStructureFactor requires a nonzero number of bins."
  else if k_max ≤ 0 then
    .error "StaticStructureFactor requires k_max to be positive."
  else if k_max ≤ k_min then
    .error "StaticStructureFactor requires that k_max must be greater than k_min."
  else
    .ok ⟨bins, k_min, k_max, direct, 0, ⊤,
         List.replicate bins 0, List.replicate bins 0, false⟩

/-- Whether an `Except` is a success. -/
def exceptOk {ε σ : Type} (e : Except ε σ) : Bool :=
  match e with
  | .ok _ => true
  | .error _ => false

namespace StaticStructureFactor

/-- The `n_query_points × n_query_points` distance matrix produced by
`box.computeAllDistances(query_points, n, query_points, n, …)` (line 61),
flattened in row-major order; every ordered pair appears, self-pairs included. -/
def allPairDistances {α : Type} (dist : α → α → ℚ) (pts : List α) : List ℚ :=
  pts.flatMap (fun p => pts.map (fun q => dist p q))

/-- `StaticStructureFactor::accumulateDirect` (lines 56–77): for every k-bin
center `k`, sum `sinc(k · distance)` over all `n²` entries of the distance
matrix, divide by `n`, and increment the (merged) local histogram at that bin. -/
def accumulateDirect {α : Type} (sinc : ℚ → ℚ) (dist : α → α → ℚ)
    (s : StaticStructureFactor) (pts : List α) : StaticStructureFactor :=
  let distances := allPairDistances dist pts
  let n := pts.length
  { s with local_histograms := (List.range s.bins).map (fun i =>
      s.local_histograms.getD i 0
        + (distances.map
            (fun d => sinc (binCenter s.bins s.k_min s.k_max i * d))).sum / (n : ℚ)) }

/-- The fixed RDF bin count of `accumulateRDF` (line 99); odd, as the
`static_assert` at line 100 demands. -/
def rdf_bins : ℕ := 1001

/-- The integrand of `accumulateRDF` (lines 113–117):
`r² · (g(r) − 1) · sinc(k·r)` sampled at RDF bin center `rdf_index`. -/
def rdfIntegrand (sinc : ℚ → ℚ) (r_max : ℚ) (g : ℕ → ℚ) (k : ℚ) (i : ℕ) : ℚ :=
  let r := binCenter rdf_bins 0 r_max i
  r * r * (g i - 1) * sinc (k * r)

/-- The per-frame, per-bin contribution of `accumulateRDF` (lines 84–122):
`(2 · TWO_PI · n / V) · simpson_integrate(integrand, rdf_bins, dr)` with
`dr = (rdf_centers.back() − rdf_centers.front()) / rdf_centers.size()`
(lines 119–120; the size of the centers array is `rdf_bins`). -/
def rdfContribution (sinc : ℚ → ℚ) (twoPi : ℚ) (n : ℕ) (V r_max : ℚ)
    (g : ℕ → ℚ) (k : ℚ) : ℚ :=
  let normalization := 2 * twoPi * (n : ℚ) / V
  let dr := (binCenter rdf_bins 0 r_max (rdf_bins - 1)
      - binCenter rdf_bins 0 r_max 0) / (rdf_bins : ℚ)
  normalization * simpson_integrate (rdfIntegrand sinc r_max g k) rdf_bins dr

/-- The per-frame, per-bin RDF-mode contribution as the SPEC words it
(§4.3 steps 4–5): the same integrand and Simpson rule, but with step size
`dr = r_max / number_of_RDF_bins`. Written only to be compared against
`rdfContribution`, the definition taken from the source. -/
def specRdfContribution (sinc : ℚ → ℚ) (twoPi : ℚ) (n : ℕ) (V r_max : ℚ)
    (g : ℕ → ℚ) (k : ℚ) : ℚ :=
  let normalization := 2 * twoPi * (n : ℚ) / V
  let dr := r_max / (rdf_bins : ℚ)
  normalization * simpson_integrate (rdfIntegrand sinc r_max g k) rdf_bins dr

/-- `StaticStructureFactor::accumulateRDF` (lines 79–125) with the box and RDF
collaborators abstracted: `r_max` is the radius computed at line 92 and
`g i` is `rdf.getRDF()[i]`. Updates `m_min_valid_k` by
`min(m_min_valid_k, TWO_PI / r_max)` (line 97) and increments every k-bin by
`rdfContribution`. -/
def accumulateRDF (sinc : ℚ → ℚ) (twoPi : ℚ) (s : StaticStructureFactor)
    (n : ℕ) (V r_max : ℚ) (g : ℕ → ℚ) : StaticStructureFactor :=
  { s with
    min_valid_k := min s.min_valid_k ((twoPi / r_max : ℚ) : WithTop ℚ),
    local_histograms := (List.range s.bins).map (fun i =>
      s.local_histograms.getD i 0
        + rdfContribution sinc twoPi n V r_max g
            (binCenter s.bins s.k_min s.k_max i)) }

/-- `StaticStructureFactor::accumulate` (lines 41–54): dispatch on `m_direct`,
then `m_frame_counter++` and `m_reduce = true`. In RDF mode the point count
`n_query_points` is `pts.length`. -/
def accumulate {α : Type} (sinc : ℚ → ℚ) (twoPi : ℚ) (dist : α → α → ℚ)
    (s : StaticStructureFactor) (pts : List α) (V r_max : ℚ) (g : ℕ → ℚ) :
    StaticStructureFactor :=
  let t := if s.direct then accumulateDirect sinc dist s pts
           else accumulateRDF sinc twoPi s pts.length V r_max g
  { t with frame_counter := t.frame_counter + 1, reduce_flag := true }

/-- Modelled from the spec: `ThreadLocalHistogram::reduceInto` (Histogram.h,
not under src/) overwrites the target with the binwise sum across all worker
histograms (§4.1). In this model that sum is the tracked per-bin total. -/
def mergedHistogram (s : StaticStructureFactor) : List ℚ :=
  s.local_histograms

/-- `StaticStructureFactor::reduce` (lines 127–154): merge the worker
histograms into `m_structure_factor`, then in Direct mode divide by
`m_frame_counter` when it exceeds 1, and in RDF mode set every bin to
`1 + value / m_frame_counter`. Clearing of the dirty flag is modelled from
the spec (§3/§4.4): the header's reduce wrapper (not under src/) resets
`m_reduce` after reducing. -/
def reduce (s : StaticStructureFactor) : StaticStructureFactor :=
  let merged := mergedHistogram s
  let sf :=
    if s.direct then
      if 1 < s.frame_counter then
        merged.map (fun v => v / (s.frame_counter : ℚ))
      else merged
    else
      merged.map (fun v => 1 + v / (s.frame_counter : ℚ))
  { s with structure_factor := sf, reduce_flag := false }

/-- `accumulateDirect` with the fallible box collaborator made explicit:
`box.computeAllDistances` (line 61) runs before any member mutation, so a
throw (`boxFail`) propagates with the state untouched. -/
def accumulateDirectTry {α : Type} (boxFail : Bool) (sinc : ℚ → ℚ)
    (dist : α → α → ℚ) (s : StaticStructureFactor) (pts : List α) :
    Except StaticStructureFactor StaticStructureFactor :=
  if boxFail then .error s else .ok (accumulateDirect sinc dist s pts)

/-- `accumulateRDF` with the fallible RDF collaborator made explicit: the
`m_min_valid_k` update (line 97) precedes `rdf.accumulate` (line 102), so a
throw there (`rdfFail`) propagates with `m_min_valid_k` already updated but
the histograms untouched. -/
def accumulateRDFTry (rdfFail : Bool) (sinc : ℚ → ℚ) (twoPi : ℚ)
    (s : StaticStructureFactor) (n : ℕ) (V r_max : ℚ) (g : ℕ → ℚ) :
    Except StaticStructureFactor StaticStructureFactor :=
  let s1 := { s with min_valid_k := min s.min_valid_k ((twoPi / r_max : ℚ) : WithTop ℚ) }
  if rdfFail then .error s1 else .ok (accumulateRDF sinc twoPi s n V r_max g)

/-- `StaticStructureFactor::accumulate` with the collaborators' failure made
explicit: an exception escaping the selected estimator propagates before
`m_frame_counter++` and `m_reduce = true` run (lines 52–53); the error carries
the engine state left behind. -/
def accumulateTry {α : Type} (boxFail rdfFail : Bool) (sinc : ℚ → ℚ)
    (twoPi : ℚ) (dist : α → α → ℚ) (s : StaticStructureFactor) (pts : List α)
    (V r_max : ℚ) (g : ℕ → ℚ) :
    Except StaticStructureFactor StaticStructureFactor :=
  match (if s.direct then accumulateDirectTry boxFail sinc dist s pts
         else accumulateRDFTry rdfFail sinc twoPi s pts.length V r_max g) with
  | .error t => .error t
  | .ok t => .ok { t with frame_counter := t.frame_counter + 1, reduce_flag := true }

/-- The per-frame data an RDF-mode `accumulate` call consumes from its
collaborators: the point count, the box volume, the computed `r_max`, and the
RDF values. -/
structure RDFFrame where
  n : ℕ
  V : ℚ
  r_max : ℚ
  g : ℕ → ℚ

/-- Drive the engine through a sequence of frames, one `accumulate` call per
frame. Point positions are irrelevant to the tracked `min_valid_k`, so each
frame supplies `f.n` unit points and a zero distance function. -/
def runFrames (sinc : ℚ → ℚ) (twoPi : ℚ) (s : StaticStructureFactor)
    (frames : List RDFFrame) : StaticStructureFactor :=
  frames.foldl
    (fun t f => accumulate sinc twoPi (fun (_ _ : Unit) => 0) t
      (List.replicate f.n ()) f.V f.r_max f.g) s

end StaticStructureFactor

/-- A computable stand-in for `util::sinc` used by witnesses: it agrees with
`sin(x)/x` at the only sample point the witnesses evaluate, `sinc 0 = 1`. -/
def sincQ (x : ℚ) : ℚ := if x = 0 then 1 else 0

/-! ### IEEE-754 binary32 bit-pattern model for the `r_max` computation

`accumulateRDF` computes `r_max = std::nextafter(0.5f * min_box_length, 0.0f)`
(line 92). For a positive finite binary32 value, the value is strictly
monotone in the bit pattern, so `nextafter` toward zero is pattern
decrement, and halving a value of exponent ≥ 2 is exactly pattern minus
`2^23`. The valuation below is the binary32 value scaled by `2^149` (so it is
a natural number): pattern `p` has exponent field `p / 2^23` and mantissa
field `p % 2^23`. -/

/-- The value of non-negative binary32 bit pattern `p`, scaled by `2^149`:
subnormals (`exponent field 0`) decode to the mantissa, normals to
`(2^23 + mantissa) · 2^(exponent−1)`. -/
def floatValS (p : ℕ) : ℕ :=
  if p / 2 ^ 23 = 0 then p % 2 ^ 23 else (2 ^ 23 + p % 2 ^ 23) * 2 ^ (p / 2 ^ 23 - 1)

/-- The binary32 value of pattern `p` as a rational. -/
def floatVal (p : ℕ) : ℚ := (floatValS p : ℚ) / 2 ^ 149

/-- The bit pattern of `min_box_length` (lines 89–91): the smaller of the two
in-plane side lengths for a 2-D box, the smallest of all three otherwise
(monotonicity of the valuation makes the pattern min the value min). -/
def minBoxLengthPattern (is2D : Bool) (px py pz : ℕ) : ℕ :=
  if is2D then min px py else min px (min py pz)

/-- The bit pattern of `r_max` (line 92): halve `min_box_length` (exact for
exponent ≥ 2: subtract `2^23` from the pattern), then `nextafter` toward zero
(decrement the pattern). -/
def rMaxPattern (is2D : Bool) (px py pz : ℕ) : ℕ :=
  minBoxLengthPattern is2D px py pz - 2 ^ 23 - 1

/-- `accumulateRDF` with the box side lengths given as binary32 bit patterns:
computes `r_max` per lines 88–92 and returns, alongside the new engine state,
the ball-query radius handed to the RDF collaborator via
`QueryArgs::make_ball(r_max)` (line 93) — the same `r_max`. -/
def StaticStructureFactor.accumulateRDFBox (sinc : ℚ → ℚ) (twoPi : ℚ)
    (s : StaticStructureFactor) (n : ℕ) (V : ℚ) (is2D : Bool) (px py pz : ℕ)
    (g : ℕ → ℚ) : StaticStructureFactor × ℚ :=
  let r_max := floatVal (rMaxPattern is2D px py pz)
  (StaticStructureFactor.accumulateRDF sinc twoPi s n V r_max g, r_max)

/-! ### Helper lemmas -/

open StaticStructureFactor

/-- Indexing a range-map list with `getD` inside the range. -/
theorem getD_range_map (f : ℕ → ℚ) {n i : ℕ} (h : i < n) :
    (((List.range n).map f).getD i 0) = f i := by
  simp [List.getD, List.getElem?_map, List.getElem?_range, h]

/-- `accumulate` preserves the mode. -/
theorem accumulate_direct_eq {α : Type} (sinc : ℚ → ℚ) (twoPi : ℚ)
    (dist : α → α → ℚ) (s : StaticStructureFactor) (pts : List α)
    (V r_max : ℚ) (g : ℕ → ℚ) :
    (accumulate sinc twoPi dist s pts V r_max g).direct = s.direct := by
  unfold accumulate
  cases hs : s.direct <;> simp [hs, accumulateDirect, accumulateRDF]

/-- `accumulate` preserves the bins count. -/
theorem accumulate_bins_eq {α : Type} (sinc : ℚ → ℚ) (twoPi : ℚ)
    (dist : α → α → ℚ) (s : StaticStructureFactor) (pts : List α)
    (V r_max : ℚ) (g : ℕ → ℚ) :
    (accumulate sinc twoPi dist s pts V r_max g).bins = s.bins := by
  unfold accumulate
  cases hs : s.direct <;> simp [hs, accumulateDirect, accumulateRDF]

/-- In RDF mode `accumulate` folds the `min_valid_k` update. -/
theorem accumulate_min_valid_k_rdf {α : Type} (sinc : ℚ → ℚ) (twoPi : ℚ)
    (dist : α → α → ℚ) (s : StaticStructureFactor) (pts : List α)
    (V r_max : ℚ) (g : ℕ → ℚ) (h : s.direct = false) :
    (accumulate sinc twoPi dist s pts V r_max g).min_valid_k
      = min s.min_valid_k ((twoPi / r_max : ℚ) : WithTop ℚ) := by
  simp [accumulate, h, accumulateRDF]

/-- In Direct mode `accumulate` leaves `min_valid_k` untouched. -/
theorem accumulate_min_valid_k_direct {α : Type} (sinc : ℚ → ℚ) (twoPi : ℚ)
    (dist : α → α → ℚ) (s : StaticStructureFactor) (pts : List α)
    (V r_max : ℚ) (g : ℕ → ℚ) (h : s.direct = true) :
    (accumulate sinc twoPi dist s pts V r_max g).min_valid_k = s.min_valid_k := by
  simp [accumulate, h, accumulateDirect]

/-- Inversion of a successful construction: the initial state. -/
theorem mk_ok_state {bins : ℕ} {k_max k_min : ℚ} {direct : Bool}
    {s : StaticStructureFactor}
    (h : mkStaticStructureFactor bins k_max k_min direct = .ok s) :
    s = ⟨bins, k_min, k_max, direct, 0, ⊤, List.replicate bins 0,
         List.replicate bins 0, false⟩ := by
  unfold mkStaticStructureFactor at h
  split_ifs at h <;> simp_all

/-- `getD` on an all-`c` histogram is `c` inside the range. -/
theorem getD_replicate {n i : ℕ} (c : ℚ) (h : i < n) :
    (List.replicate n c).getD i 0 = c := by
  simp [List.getD, List.getElem?_replicate, h]

/-- A single-point Direct-mode frame on a constant-`c` engine state adds
exactly `sinc 0 = 1` to every bin: the distance matrix is the single
self-pair at distance 0. -/
theorem accumulateDirect_single {α : Type} (sinc : ℚ → ℚ) (dist : α → α → ℚ)
    (bins : ℕ) (k_min k_max : ℚ) (fc : ℕ) (c : ℚ) (sf : List ℚ) (rf : Bool)
    (p : α) (hsinc : sinc 0 = 1) (hdist : dist p p = 0) :
    accumulateDirect sinc dist
        ⟨bins, k_min, k_max, true, fc, ⊤, List.replicate bins c, sf, rf⟩ [p]
      = ⟨bins, k_min, k_max, true, fc, ⊤, List.replicate bins (c + 1),
         sf, rf⟩ := by
  have hmap : (List.range bins).map
      (fun i => (List.replicate bins c)[i]?.getD 0 + 1)
        = List.replicate bins (c + 1) := by
    rw [List.map_congr_left (g := fun _ => c + 1)
      (fun i hi => by simp [List.getElem?_replicate, List.mem_range.mp hi])]
    rw [List.map_const', List.length_range]
  unfold accumulateDirect allPairDistances
  simp [hdist, hsinc, hmap]

/-- One single-point Direct frame on a constant-`c` engine state: the locals
become constant `c + 1`, the frame counter steps, the dirty flag is set. -/
theorem accumulate_single_state {α : Type} (sinc : ℚ → ℚ) (twoPi : ℚ)
    (dist : α → α → ℚ) (bins : ℕ) (k_min k_max : ℚ) (fc : ℕ) (c : ℚ)
    (sf : List ℚ) (rf : Bool) (p : α) (V r_max : ℚ) (g : ℕ → ℚ)
    (hsinc : sinc 0 = 1) (hdist : dist p p = 0) :
    accumulate sinc twoPi dist
        ⟨bins, k_min, k_max, true, fc, ⊤, List.replicate bins c, sf, rf⟩
        [p] V r_max g
      = ⟨bins, k_min, k_max, true, fc + 1, ⊤, List.replicate bins (c + 1),
         sf, true⟩ := by
  unfold accumulate
  rw [accumulateDirect_single sinc dist bins k_min k_max fc c sf rf p
    hsinc hdist]
  rfl

/-! ### Claim theorems -/

/-- C6: construction fails (invalid-argument, no partial engine) if and only
if `bin_count = 0`, or `k_max ≤ 0`, or `k_max ≤ k_min`; in particular
`bin_count = 0`, `k_max = 0`, `k_max = k_min` and `k_max < k_min` each fail
while `bin_count = 1, k_min = 0, k_max = 1` succeeds. -/
theorem C6_construction_validation :
    (∀ (bins : ℕ) (k_max k_min : ℚ) (direct : Bool),
        exceptOk (mkStaticStructureFactor bins k_max k_min direct) = true ↔
          ¬(bins = 0 ∨ k_max ≤ 0 ∨ k_max ≤ k_min)) ∧
    exceptOk (mkStaticStructureFactor 0 1 0 true) = false ∧
    exceptOk (mkStaticStructureFactor 5 0 0 true) = false ∧
    exceptOk (mkStaticStructureFactor 5 2 2 true) = false ∧
    exceptOk (mkStaticStructureFactor 5 2 3 true) = false ∧
    exceptOk (mkStaticStructureFactor 1 1 0 true) = true := by
  refine ⟨?_, by decide, by decide, by decide, by decide, by decide⟩
  intro bins k_max k_min direct
  unfold mkStaticStructureFactor
  split_ifs with h1 h2 h3
  · simp [exceptOk, h1]
  · simp [exceptOk, h2]
  · simp [exceptOk, h3]
  · simp [exceptOk, h1, h2, h3]

/-- C2: in RDF mode, reduce sets every Result bin to
`1 + accumulated_sum / frame_counter` with no special case on the frame
counter, where the accumulated sum is the binwise merge of the worker
histograms. -/
theorem C2_rdf_reduce_formula (s : StaticStructureFactor)
    (h : s.direct = false) :
    (reduce s).structure_factor
      = (mergedHistogram s).map (fun v => 1 + v / (s.frame_counter : ℚ)) := by
  simp [reduce, h]

/-- Witness for C2 at a concrete two-frame RDF state. -/
theorem C2_rdf_reduce_formula_witness :
    (reduce ⟨1, 0, 1, false, 2, ⊤, [4], [0], true⟩).structure_factor = [3] := by
  rw [C2_rdf_reduce_formula ⟨1, 0, 1, false, 2, ⊤, [4], [0], true⟩ rfl]
  simp [mergedHistogram]
  norm_num

/-- C7: reduction is idempotent — with at least one accumulated frame, a
second `reduce` with no intervening `accumulate` leaves the structure factor
values and `min_valid_k` exactly as after the first, in either mode. -/
theorem C7_reduce_idempotent (s : StaticStructureFactor)
    (h : 1 ≤ s.frame_counter) :
    (reduce (reduce s)).structure_factor = (reduce s).structure_factor ∧
    (reduce (reduce s)).min_valid_k = (reduce s).min_valid_k :=
  ⟨rfl, rfl⟩

/-- Witness for C7 at a concrete one-frame RDF state. -/
theorem C7_reduce_idempotent_witness :
    (reduce (reduce (⟨1, 0, 1, false, 1, ⊤, [5], [0], true⟩ :
        StaticStructureFactor))).structure_factor
      = (reduce (⟨1, 0, 1, false, 1, ⊤, [5], [0], true⟩ :
        StaticStructureFactor)).structure_factor :=
  (C7_reduce_idempotent ⟨1, 0, 1, false, 1, ⊤, [5], [0], true⟩ (by decide)).1

/-- C8: `accumulate` increments the frame counter by exactly one, sets the
dirty flag and can only lower `min_valid_k`; `reduce` clears the dirty flag
and leaves the frame counter and `min_valid_k` unchanged. -/
theorem C8_frame_effects {α : Type} (sinc : ℚ → ℚ) (twoPi : ℚ)
    (dist : α → α → ℚ) (s : StaticStructureFactor) (pts : List α)
    (V r_max : ℚ) (g : ℕ → ℚ) :
    (accumulate sinc twoPi dist s pts V r_max g).frame_counter
        = s.frame_counter + 1 ∧
    (accumulate sinc twoPi dist s pts V r_max g).reduce_flag = true ∧
    (accumulate sinc twoPi dist s pts V r_max g).min_valid_k ≤ s.min_valid_k ∧
    (reduce s).frame_counter = s.frame_counter ∧
    (reduce s).min_valid_k = s.min_valid_k ∧
    (reduce s).reduce_flag = false := by
  refine ⟨?_, rfl, ?_, rfl, rfl, rfl⟩
  · unfold accumulate
    cases hs : s.direct <;> simp [hs, accumulateDirect, accumulateRDF]
  · cases hs : s.direct
    · rw [accumulate_min_valid_k_rdf sinc twoPi dist s pts V r_max g hs]
      exact min_le_left _ _
    · rw [accumulate_min_valid_k_direct sinc twoPi dist s pts V r_max g hs]

/-- Unfolding one frame of `runFrames`. -/
theorem runFrames_cons (sinc : ℚ → ℚ) (twoPi : ℚ) (s : StaticStructureFactor)
    (f : RDFFrame) (fs : List RDFFrame) :
    runFrames sinc twoPi s (f :: fs)
      = runFrames sinc twoPi
          (accumulate sinc twoPi (fun (_ _ : Unit) => 0) s
            (List.replicate f.n ()) f.V f.r_max f.g) fs := rfl

/-- C1: Direct-mode accumulate adds to each k-bin, at that bin's center `k`,
the sum of `sinc(k·distance)` over all `n²` ordered pairs of points
(self-pairs included), divided by `n` (not `n²`); and for a single point and
one frame, every bin of the reduced structure factor equals 1 exactly,
independent of k. -/
theorem C1_direct_accumulation {α : Type} :
    (∀ (sinc : ℚ → ℚ) (twoPi : ℚ) (dist : α → α → ℚ)
        (s : StaticStructureFactor) (pts : List α) (V r_max : ℚ) (g : ℕ → ℚ)
        (i : ℕ), s.direct = true → i < s.bins →
        (allPairDistances dist pts).length = pts.length * pts.length ∧
        (accumulate sinc twoPi dist s pts V r_max g).local_histograms.getD i 0
          = s.local_histograms.getD i 0
            + ((allPairDistances dist pts).map
                (fun d => sinc (binCenter s.bins s.k_min s.k_max i * d))).sum
              / (pts.length : ℚ)) ∧
    (∀ (sinc : ℚ → ℚ) (twoPi : ℚ) (dist : α → α → ℚ) (bins : ℕ)
        (k_max k_min : ℚ) (s0 : StaticStructureFactor) (p : α)
        (V r_max : ℚ) (g : ℕ → ℚ),
        mkStaticStructureFactor bins k_max k_min true = .ok s0 →
        sinc 0 = 1 → dist p p = 0 →
        (reduce (accumulate sinc twoPi dist s0 [p] V r_max g)).structure_factor
          = List.replicate bins 1) := by
  constructor
  · intro sinc twoPi dist s pts V r_max g i hdir hi
    obtain ⟨bins, kmi, kma, dir, fc, mv, lh, sfv, rfb⟩ := s
    simp only at hdir hi
    subst hdir
    refine ⟨?_, ?_⟩
    · unfold allPairDistances
      rw [List.length_flatMap]
      simp [Function.comp_def, List.map_const', List.sum_replicate, smul_eq_mul,
        Nat.mul_comm]
    · show ((List.range bins).map (fun j => lh.getD j 0
          + ((allPairDistances dist pts).map
              (fun d => sinc (binCenter bins kmi kma j * d))).sum
            / (pts.length : ℚ))).getD i 0 = _
      rw [getD_range_map _ hi]
  · intro sinc twoPi dist bins k_max k_min s0 p V r_max g h0 hsinc hdist
    have hs := mk_ok_state h0
    subst hs
    rw [accumulate_single_state sinc twoPi dist bins k_min k_max 0 0
      (List.replicate bins 0) false p V r_max g hsinc hdist]
    show List.replicate bins ((0 : ℚ) + 1) = List.replicate bins 1
    norm_num

/-- Witness for C1 at a concrete 2-bin direct engine with one point. -/
theorem C1_direct_accumulation_witness :
    (reduce (accumulate sincQ 6 (fun (_ _ : Unit) => 0)
        ⟨2, 0, 1, true, 0, ⊤, List.replicate 2 0, List.replicate 2 0, false⟩
        [()] 1 1 (fun _ => 0))).structure_factor = List.replicate 2 1 :=
  (@C1_direct_accumulation Unit).2 sincQ 6 (fun _ _ => 0) 2 1 0
    ⟨2, 0, 1, true, 0, ⊤, List.replicate 2 0, List.replicate 2 0, false⟩
    () 1 1 (fun _ => 0) (by norm_num [mkStaticStructureFactor]) rfl rfl

/-- C3: Direct-mode reduce divides every Result bin by the frame counter
exactly when it exceeds 1 and leaves the merged values unchanged at
frame_counter ≤ 1; hence accumulating the identical single-point frame twice
and reducing yields the same S(k) as accumulating it once. -/
theorem C3_direct_reduce_normalization {α : Type} :
    (∀ s : StaticStructureFactor, s.direct = true →
        (1 < s.frame_counter →
            (reduce s).structure_factor
              = (mergedHistogram s).map (fun v => v / (s.frame_counter : ℚ))) ∧
        (s.frame_counter ≤ 1 →
            (reduce s).structure_factor = mergedHistogram s)) ∧
    (∀ (sinc : ℚ → ℚ) (twoPi : ℚ) (dist : α → α → ℚ) (bins : ℕ)
        (k_max k_min : ℚ) (s0 : StaticStructureFactor) (p : α)
        (V r_max : ℚ) (g : ℕ → ℚ),
        mkStaticStructureFactor bins k_max k_min true = .ok s0 →
        sinc 0 = 1 → dist p p = 0 →
        (reduce (accumulate sinc twoPi dist
            (accumulate sinc twoPi dist s0 [p] V r_max g)
            [p] V r_max g)).structure_factor
          = (reduce (accumulate sinc twoPi dist s0 [p] V r_max g)).structure_factor) := by
  constructor
  · intro s hdir
    refine ⟨fun hfc => ?_, fun hfc => ?_⟩
    · simp [reduce, hdir, hfc]
    · simp [reduce, hdir, Nat.not_lt.mpr hfc]
  · intro sinc twoPi dist bins k_max k_min s0 p V r_max g h0 hsinc hdist
    have hs := mk_ok_state h0
    subst hs
    rw [accumulate_single_state sinc twoPi dist bins k_min k_max 0 0
      (List.replicate bins 0) false p V r_max g hsinc hdist]
    rw [accumulate_single_state sinc twoPi dist bins k_min k_max (0 + 1) (0 + 1)
      (List.replicate bins 0) true p V r_max g hsinc hdist]
    show (List.replicate bins ((0 : ℚ) + 1 + 1)).map
        (fun v => v / ((0 + 1 + 1 : ℕ) : ℚ))
      = List.replicate bins ((0 : ℚ) + 1)
    rw [List.map_replicate]
    norm_num

/-- Witness for C3 at a concrete 2-bin direct engine accumulated twice. -/
theorem C3_direct_reduce_normalization_witness :
    (reduce (accumulate sincQ 6 (fun (_ _ : Unit) => 0)
        (accumulate sincQ 6 (fun (_ _ : Unit) => 0)
          ⟨2, 0, 1, true, 0, ⊤, List.replicate 2 0, List.replicate 2 0, false⟩
          [()] 1 1 (fun _ => 0))
        [()] 1 1 (fun _ => 0))).structure_factor
      = (reduce (accumulate sincQ 6 (fun (_ _ : Unit) => 0)
          ⟨2, 0, 1, true, 0, ⊤, List.replicate 2 0, List.replicate 2 0, false⟩
          [()] 1 1 (fun _ => 0))).structure_factor :=
  (@C3_direct_reduce_normalization Unit).2 sincQ 6 (fun _ _ => 0) 2 1 0
    ⟨2, 0, 1, true, 0, ⊤, List.replicate 2 0, List.replicate 2 0, false⟩
    () 1 1 (fun _ => 0) (by norm_num [mkStaticStructureFactor]) rfl rfl

/-- C5: `min_valid_k` starts at infinity, is updated only by RDF-mode
accumulation through a pure running minimum — after a sequence of RDF frames
it is the fold of `min` over `2π / r_max_i` — it never increases under
`accumulate`, is untouched by `reduce`, and stays infinite in pure-Direct
mode. -/
theorem C5_min_valid_k :
    (∀ (bins : ℕ) (k_max k_min : ℚ) (direct : Bool)
        (s : StaticStructureFactor),
        mkStaticStructureFactor bins k_max k_min direct = .ok s →
        s.min_valid_k = ⊤) ∧
    (∀ (sinc : ℚ → ℚ) (twoPi : ℚ) (s : StaticStructureFactor)
        (frames : List RDFFrame), s.direct = false →
        (runFrames sinc twoPi s frames).min_valid_k
          = frames.foldl (fun m f => min m ((twoPi / f.r_max : ℚ) : WithTop ℚ))
              s.min_valid_k) ∧
    (∀ (α : Type) (sinc : ℚ → ℚ) (twoPi : ℚ) (dist : α → α → ℚ)
        (s : StaticStructureFactor) (pts : List α) (V r_max : ℚ) (g : ℕ → ℚ),
        (accumulate sinc twoPi dist s pts V r_max g).min_valid_k
          ≤ s.min_valid_k) ∧
    (∀ s : StaticStructureFactor, (reduce s).min_valid_k = s.min_valid_k) ∧
    (∀ (sinc : ℚ → ℚ) (twoPi : ℚ) (s : StaticStructureFactor)
        (frames : List RDFFrame), s.direct = true →
        (runFrames sinc twoPi s frames).min_valid_k = s.min_valid_k) := by
  refine ⟨?_, ?_, ?_, fun s => rfl, ?_⟩
  · intro bins k_max k_min direct s h
    rw [mk_ok_state h]
  · intro sinc twoPi s frames h
    induction frames generalizing s with
    | nil => rfl
    | cons f fs ih =>
        rw [runFrames_cons, List.foldl_cons]
        rw [ih _ (by rw [accumulate_direct_eq, h])]
        rw [accumulate_min_valid_k_rdf sinc twoPi (fun (_ _ : Unit) => 0) s
          (List.replicate f.n ()) f.V f.r_max f.g h]
  · intro α sinc twoPi dist s pts V r_max g
    cases hs : s.direct
    · rw [accumulate_min_valid_k_rdf sinc twoPi dist s pts V r_max g hs]
      exact min_le_left _ _
    · rw [accumulate_min_valid_k_direct sinc twoPi dist s pts V r_max g hs]
  · intro sinc twoPi s frames h
    induction frames generalizing s with
    | nil => rfl
    | cons f fs ih =>
        rw [runFrames_cons]
        rw [ih _ (by rw [accumulate_direct_eq, h])]
        rw [accumulate_min_valid_k_direct sinc twoPi (fun (_ _ : Unit) => 0) s
          (List.replicate f.n ()) f.V f.r_max f.g h]

/-- Witness for C5: one RDF frame with `r_max = 2` and `TWO_PI = 6` lowers
`min_valid_k` from infinity to 3. -/
theorem C5_min_valid_k_witness :
    (runFrames sincQ 6
        ⟨1, 0, 1, false, 0, ⊤, [0], [0], false⟩
        [⟨1, 1, 2, fun _ => 0⟩]).min_valid_k = ((3 : ℚ) : WithTop ℚ) := by
  rw [C5_min_valid_k.2.1 sincQ 6 ⟨1, 0, 1, false, 0, ⊤, [0], [0], false⟩
    [⟨1, 1, 2, fun _ => 0⟩] rfl]
  rw [List.foldl_cons, List.foldl_nil, min_top_left]
  norm_num

/-- C10: `accumulate` increments the frame counter and sets the dirty flag
only after the selected estimator completed; a propagated collaborator error
leaves the frame counter and dirty flag unchanged, though in RDF mode
`min_valid_k` has already been updated before the failure point. -/
theorem C10_accumulate_failure_atomicity {α : Type} (boxFail rdfFail : Bool)
    (sinc : ℚ → ℚ) (twoPi : ℚ) (dist : α → α → ℚ) (s : StaticStructureFactor)
    (pts : List α) (V r_max : ℚ) (g : ℕ → ℚ) :
    accumulateTry false false sinc twoPi dist s pts V r_max g
        = .ok (accumulate sinc twoPi dist s pts V r_max g) ∧
    (s.direct = true →
      accumulateTry true rdfFail sinc twoPi dist s pts V r_max g = .error s) ∧
    (s.direct = false →
      accumulateTry boxFail true sinc twoPi dist s pts V r_max g
        = .error { s with min_valid_k :=
            (min s.min_valid_k ((twoPi / r_max : ℚ) : WithTop ℚ)) }) := by
  refine ⟨?_, fun h => ?_, fun h => ?_⟩
  · cases hs : s.direct <;>
      simp [accumulateTry, accumulateDirectTry, accumulateRDFTry, accumulate, hs]
  · simp [accumulateTry, accumulateDirectTry, h]
  · simp [accumulateTry, accumulateRDFTry, h]

/-- Witness for C10: a failing RDF collaborator call on a fresh RDF-mode
engine propagates the error with `min_valid_k` updated to `6 / 1 = 6` and the
frame counter and dirty flag untouched. -/
theorem C10_accumulate_failure_atomicity_witness :
    accumulateTry false true sincQ 6 (fun (_ _ : Unit) => 0)
        ⟨1, 0, 1, false, 0, ⊤, [0], [0], false⟩ [()] 1 1 (fun _ => 0)
      = .error ⟨1, 0, 1, false, 0, ((6 : ℚ) : WithTop ℚ), [0], [0], false⟩ := by
  rw [(C10_accumulate_failure_atomicity false true sincQ 6 (fun (_ _ : Unit) => 0)
      ⟨1, 0, 1, false, 0, ⊤, [0], [0], false⟩ [()] 1 1 (fun _ => 0)).2.2 rfl]
  rw [min_top_left]
  norm_num

/-- The step size `accumulateRDF` feeds to Simpson integration (lines
119–120), in closed form: the span of the RDF bin centers divided by their
count, `1000·r_max/1001²` — not `r_max/1001`. -/
theorem rdf_dr_closed_form (r_max : ℚ) :
    (binCenter rdf_bins 0 r_max (rdf_bins - 1) - binCenter rdf_bins 0 r_max 0)
        / ((rdf_bins : ℕ) : ℚ)
      = 1000 * r_max / 1001 ^ 2 := by
  norm_num [binCenter, rdf_bins]
  ring

/-- A list of negative rationals has negative sum. -/
theorem sum_neg_of_all_neg {l : List ℚ} (h0 : l ≠ []) (h : ∀ x ∈ l, x < 0) :
    l.sum < 0 := by
  induction l with
  | nil => exact absurd rfl h0
  | cons x xs ih =>
      rw [List.sum_cons]
      rcases eq_or_ne xs [] with hxs | hxs
      · subst hxs
        simpa using h x (by simp)
      · have h1 := h x (by simp)
        have h2 := ih hxs (fun y hy => h y (by simp [hy]))
        linarith

/-- At `k = 0`, `g ≡ 0` and `r_max = 1001`, every sample of the RDF-mode
integrand is negative (`sinc 0 = 1` and the bin centers are positive). -/
theorem rdfIntegrand_neg_at (i : ℕ) :
    rdfIntegrand sincQ 1001 (fun _ => 0) 0 i < 0 := by
  have hr : (0 : ℚ) < binCenter rdf_bins 0 1001 i := by
    unfold binCenter rdf_bins
    have hi : (0 : ℚ) ≤ (i : ℚ) := Nat.cast_nonneg i
    norm_num
    nlinarith [hi]
  unfold rdfIntegrand sincQ
  show binCenter rdf_bins 0 1001 i * binCenter rdf_bins 0 1001 i
      * ((0 : ℚ) - 1)
      * (if (0 : ℚ) * binCenter rdf_bins 0 1001 i = 0 then 1 else 0) < 0
  rw [zero_mul, if_pos rfl]
  nlinarith [mul_pos hr hr]

/-- C4 counterexample: at `r_max = 1001`, `k = 0` (1 bin on `[-1, 1]`),
`g ≡ 0`, one query point and unit volume, the per-frame contribution the code
computes differs from the contribution the spec's step size
`dr = r_max / rdf_bins` would give. -/
theorem C4_counterexample :
    rdfContribution sincQ 6 1 1 1001 (fun _ => 0) 0
      ≠ specRdfContribution sincQ 6 1 1 1001 (fun _ => 0) 0 := by
  have hS : (((List.range ((rdf_bins - 1) / 2)).map
      (fun j => rdfIntegrand sincQ 1001 (fun _ => 0) 0 (2 * j)
        + 4 * rdfIntegrand sincQ 1001 (fun _ => 0) 0 (2 * j + 1)
        + rdfIntegrand sincQ 1001 (fun _ => 0) 0 (2 * j + 2))).sum) < 0 := by
    apply sum_neg_of_all_neg
    · simp [rdf_bins]
    · intro x hx
      rw [List.mem_map] at hx
      obtain ⟨j, hj, rfl⟩ := hx
      have h1 := rdfIntegrand_neg_at (2 * j)
      have h2 := rdfIntegrand_neg_at (2 * j + 1)
      have h3 := rdfIntegrand_neg_at (2 * j + 2)
      linarith
  intro hEq
  unfold rdfContribution specRdfContribution at hEq
  rw [rdf_dr_closed_form 1001] at hEq
  have hcast : ((rdf_bins : ℕ) : ℚ) = 1001 := by norm_num [rdf_bins]
  rw [hcast] at hEq
  unfold simpson_integrate at hEq
  push_cast at hEq
  linarith [hS, hEq]

/-- C4 (amended): in RDF mode every k-bin, at its center `k`, is incremented
per frame by `4π·n/V` times the composite-Simpson integral of
`r²·(g(r)−1)·sinc(k·r)` over the 1001 RDF bin centers, with step size
`dr = (last center − first center)/1001 = 1000·r_max/1001²` (slightly smaller
than the spec's `r_max/1001`). -/
theorem C4_rdf_contribution_amended {α : Type} (sinc : ℚ → ℚ) (twoPi : ℚ)
    (dist : α → α → ℚ) (s : StaticStructureFactor) (pts : List α)
    (V r_max : ℚ) (g : ℕ → ℚ) (i : ℕ) (hdir : s.direct = false)
    (hi : i < s.bins) :
    (accumulate sinc twoPi dist s pts V r_max g).local_histograms.getD i 0
      = s.local_histograms.getD i 0
        + (2 * twoPi * (pts.length : ℚ) / V)
          * simpson_integrate
              (rdfIntegrand sinc r_max g (binCenter s.bins s.k_min s.k_max i))
              rdf_bins (1000 * r_max / 1001 ^ 2) := by
  obtain ⟨bins, kmi, kma, dir, fc, mv, lh, sfv, rfb⟩ := s
  simp only at hdir hi
  subst hdir
  show ((List.range bins).map (fun j => lh.getD j 0
      + rdfContribution sinc twoPi pts.length V r_max g
          (binCenter bins kmi kma j))).getD i 0 = _
  rw [getD_range_map _ hi]
  unfold rdfContribution
  rw [rdf_dr_closed_form r_max]

/-- Witness for C4's amended theorem: a 1-bin RDF engine with center `k = 0`.
-/
theorem C4_rdf_contribution_amended_witness :
    (accumulate sincQ 6 (fun (_ _ : Unit) => 0)
        ⟨1, -1, 1, false, 0, ⊤, [0], [0], false⟩
        [()] 1 1 (fun _ => 0)).local_histograms.getD 0 0
      = (0 : ℚ)
        + (2 * 6 * ((1 : ℕ) : ℚ) / 1)
          * simpson_integrate
              (rdfIntegrand sincQ 1 (fun _ => 0) (binCenter 1 (-1) 1 0))
              rdf_bins (1000 * 1 / 1001 ^ 2) := by
  have h := C4_rdf_contribution_amended sincQ 6 (fun (_ _ : Unit) => 0)
    ⟨1, -1, 1, false, 0, ⊤, [0], [0], false⟩ [()] 1 1 (fun _ => 0) 0
    rfl (by decide)
  simpa using h

/-! ### C9: the `r_max` float computation -/

/-- The scaled binary32 valuation is strictly monotone in the bit pattern. -/
theorem floatValS_strictMono : StrictMono floatValS := by
  apply strictMono_nat_of_lt_succ
  intro p
  unfold floatValS
  have h23 : (2 : ℕ) ^ 23 = 8388608 := by norm_num
  rw [h23]
  have hpos : 0 < (2 : ℕ) ^ (p / 8388608 - 1) := pow_pos (by norm_num) _
  rcases Nat.lt_or_ge (p % 8388608) 8388607 with hm | hm
  · have hd1 : (p + 1) / 8388608 = p / 8388608 := by omega
    have hd2 : (p + 1) % 8388608 = p % 8388608 + 1 := by omega
    rw [hd1, hd2]
    by_cases he : p / 8388608 = 0
    · rw [if_pos he, if_pos he]
      omega
    · rw [if_neg he, if_neg he]
      exact (mul_lt_mul_right hpos).mpr (by omega)
  · have hm' : p % 8388608 = 8388607 := by omega
    have hd1 : (p + 1) / 8388608 = p / 8388608 + 1 := by omega
    have hd2 : (p + 1) % 8388608 = 0 := by omega
    rw [hd1, hd2, hm']
    rw [if_neg (show ¬(p / 8388608 + 1 = 0) by omega)]
    by_cases he : p / 8388608 = 0
    · rw [if_pos he, he]
      norm_num
    · rw [if_neg he]
      rw [show p / 8388608 + 1 - 1 = p / 8388608 - 1 + 1 from by omega, pow_succ]
      calc (8388608 + 8388607) * 2 ^ (p / 8388608 - 1)
          < 16777216 * 2 ^ (p / 8388608 - 1) :=
            (mul_lt_mul_right hpos).mpr (by norm_num)
        _ = (8388608 + 0) * (2 ^ (p / 8388608 - 1) * 2) := by ring

/-- Halving a pattern of exponent field ≥ 2 (pattern minus `2^23`) exactly
halves the scaled valuation. -/
theorem floatValS_half {n : ℕ} (h : 2 ^ 24 ≤ n) :
    2 * floatValS (n - 2 ^ 23) = floatValS n := by
  unfold floatValS
  have h23 : (2 : ℕ) ^ 23 = 8388608 := by norm_num
  have h24 : (2 : ℕ) ^ 24 = 16777216 := by norm_num
  rw [h23]
  rw [h24] at h
  have hd1 : (n - 8388608) / 8388608 = n / 8388608 - 1 := by omega
  have hd2 : (n - 8388608) % 8388608 = n % 8388608 := by omega
  rw [hd1, hd2, if_neg (by omega), if_neg (by omega)]
  have he2 : n / 8388608 - 1 - 1 = n / 8388608 - 2 := by omega
  have he : n / 8388608 - 1 = n / 8388608 - 2 + 1 := by omega
  rw [he2, he, pow_succ]
  ring

/-- The binary32 value is strictly monotone in the bit pattern. -/
theorem floatVal_strictMono : StrictMono floatVal := by
  intro a b hab
  unfold floatVal
  have h2 : (0 : ℚ) < 2 ^ 149 := by positivity
  exact div_lt_div_of_pos_right (by exact_mod_cast floatValS_strictMono hab) h2

/-- C9: per RDF-mode frame, `r_max` denotes the largest representable radius
strictly below half the smallest box dimension (the minimum of the two
in-plane side lengths for 2-D boxes, of all three for 3-D boxes), and the
same `r_max` is handed to the RDF ball query and used in the
`min_valid_k` bound `2π / r_max`. Box side lengths are given as binary32 bit
patterns; the hypothesis (exponent field ≥ 2) makes the halving exact. -/
theorem C9_rmax_computation (is2D : Bool) (px py pz : ℕ)
    (h : 2 ^ 24 ≤ minBoxLengthPattern is2D px py pz) :
    floatVal (minBoxLengthPattern is2D px py pz)
        = (if is2D then min (floatVal px) (floatVal py)
           else min (floatVal px) (min (floatVal py) (floatVal pz))) ∧
    2 * floatVal (minBoxLengthPattern is2D px py pz - 2 ^ 23)
        = floatVal (minBoxLengthPattern is2D px py pz) ∧
    floatVal (rMaxPattern is2D px py pz)
        < floatVal (minBoxLengthPattern is2D px py pz - 2 ^ 23) ∧
    (∀ q : ℕ,
        floatVal q < floatVal (minBoxLengthPattern is2D px py pz - 2 ^ 23) →
        floatVal q ≤ floatVal (rMaxPattern is2D px py pz)) ∧
    (∀ (sinc : ℚ → ℚ) (twoPi : ℚ) (s : StaticStructureFactor) (n : ℕ)
        (V : ℚ) (g : ℕ → ℚ),
        (StaticStructureFactor.accumulateRDFBox sinc twoPi s n V
            is2D px py pz g).1.min_valid_k
          = min s.min_valid_k
              (((twoPi / (StaticStructureFactor.accumulateRDFBox sinc twoPi
                  s n V is2D px py pz g).2 : ℚ) : WithTop ℚ))) := by
  have h23 : (2 : ℕ) ^ 23 = 8388608 := by norm_num
  have h24 : (2 : ℕ) ^ 24 = 16777216 := by norm_num
  refine ⟨?_, ?_, ?_, ?_, ?_⟩
  · unfold minBoxLengthPattern
    cases is2D
    · rw [if_neg (by simp), if_neg (by simp)]
      rw [floatVal_strictMono.monotone.map_min, floatVal_strictMono.monotone.map_min]
    · rw [if_pos rfl, if_pos rfl]
      rw [floatVal_strictMono.monotone.map_min]
  · unfold floatVal
    rw [← floatValS_half h]
    push_cast
    ring
  · apply floatVal_strictMono
    unfold rMaxPattern
    rw [h23] at *
    rw [h24] at h
    omega
  · intro q hq
    apply floatVal_strictMono.monotone
    have hlt : q < minBoxLengthPattern is2D px py pz - 2 ^ 23 :=
      floatVal_strictMono.lt_iff_lt.mp hq
    unfold rMaxPattern
    rw [h23] at *
    rw [h24] at h
    omega
  · intro sinc twoPi s n V g
    rfl

/-- Witness for C9 at box side length patterns `2^24` (3-D box). -/
theorem C9_rmax_computation_witness :
    floatVal (rMaxPattern false (2 ^ 24) (2 ^ 24) (2 ^ 24))
      < floatVal (minBoxLengthPattern false (2 ^ 24) (2 ^ 24) (2 ^ 24) - 2 ^ 23) :=
  (C9_rmax_computation false (2 ^ 24) (2 ^ 24) (2 ^ 24)
    (by norm_num [minBoxLengthPattern])).2.2.1

end Freud
